import Mathlib

/-!
Verification of the clip-and-label video annotation tool's clip extraction
and batch export pipeline, shallowly embedded from the TypeScript source
(`VideoProcessor` in `videoProcessor.ts`, the Excel import in
`ExcelUploader`, and the Google Drive upload in `Timeline.tsx`).

JavaScript numbers are modelled as exact rationals (ℚ); machine floats
agree with this model on all concrete inputs used below.  The ffmpeg.wasm
subsystem is modelled by an explicit engine state (loaded flag plus the
two fixed working-storage names `input.mp4` / `output.mp4`) and an
oracle describing the behaviour of each `ffmpeg.exec` invocation.
-/

/-- A width/height pair, as produced by the canvas / video element. -/
structure Resolution where
  width : ℚ
  height : ℚ
deriving DecidableEq, Repr

/-- Display-space crop rectangle (interface `CropArea`). -/
structure CropArea where
  x : ℚ
  y : ℚ
  width : ℚ
  height : ℚ
deriving DecidableEq, Repr

/-- Time range in seconds (interface `TimeRange`; the source field `end`
is rendered `endTime` here because `end` is a Lean keyword). -/
structure TimeRange where
  start : ℚ
  endTime : ℚ
deriving DecidableEq, Repr

/-- An annotation (interface `Annotation` in `VideoAnnotationTool.tsx`).
`createdAt` is a wall-clock `Date` in the source and is irrelevant to the
processing pipeline, so it is not modelled. -/
structure Annotation where
  id : String
  label : String
  postag : String
  cropArea : CropArea
  timeRange : TimeRange
  filename : String
  sideView : Bool
deriving DecidableEq, Repr

/-- JavaScript `Math.round`: round half toward positive infinity. -/
def jround (q : ℚ) : ℤ := ⌊q + 1 / 2⌋

/-- Source-space crop rectangle: the values `cropX`, `cropY`,
`finalCropW`, `finalCropH` that `processAnnotation` passes to the ffmpeg
crop filter. -/
structure SourceCrop where
  x : ℚ
  y : ℚ
  width : ℚ
  height : ℚ
deriving DecidableEq, Repr

/-- The coordinate mapping inside `processAnnotation`
(`videoProcessor.ts`): per-axis scale factors, precise scaling, rounding
of each value to the nearest even integer via `Math.round(v / 2) * 2`,
clamping of x/y below by 0 and of width/height below by the minimum crop
side 32, then the final boundary check that shrinks width/height so that
`x + width` / `y + height` do not exceed the video resolution. -/
def mapCrop (cropArea : CropArea) (canvasResolution videoResolution : Resolution) :
    SourceCrop :=
  let scaleX := videoResolution.width / canvasResolution.width
  let scaleY := videoResolution.height / canvasResolution.height
  let preciseX := cropArea.x * scaleX
  let preciseY := cropArea.y * scaleY
  let preciseW := cropArea.width * scaleX
  let preciseH := cropArea.height * scaleY
  let cropX : ℤ := max 0 (jround (preciseX / 2) * 2)
  let cropY : ℤ := max 0 (jround (preciseY / 2) * 2)
  let cropW : ℤ := max 32 (jround (preciseW / 2) * 2)
  let cropH : ℤ := max 32 (jround (preciseH / 2) * 2)
  let finalCropW : ℚ := min (cropW : ℚ) (videoResolution.width - (cropX : ℚ))
  let finalCropH : ℚ := min (cropH : ℚ) (videoResolution.height - (cropY : ℚ))
  { x := (cropX : ℚ), y := (cropY : ℚ), width := finalCropW, height := finalCropH }

/-- A rational is an even integer. -/
def EvenInt (q : ℚ) : Prop := ∃ k : ℤ, q = 2 * k

example : mapCrop ⟨50, 50, 300, 200⟩ ⟨640, 360⟩ ⟨1920, 1080⟩ = ⟨150, 150, 900, 600⟩ := by
  simp only [mapCrop, jround, SourceCrop.mk.injEq]
  norm_num [Int.floor_eq_iff]

/-- The distinct failure causes of `processAnnotation`; each constructor
corresponds to one `throw new Error(...)` site (or, for `execFault`, to an
error raised by the ffmpeg subsystem itself).  The surfaced message is
produced by `wrapMessage` below. -/
inductive Cause where
  | missingResolutionInfo
  | invalidDuration
  | outputNotCreated
  | outputEmpty
  | execFault (msg : String)
deriving DecidableEq, Repr

/-- The message carried by each throw site in `processAnnotation`. -/
def Cause.message : Cause → String
  | Cause.missingResolutionInfo => "Missing resolution info"
  | Cause.invalidDuration => "Invalid duration"
  | Cause.outputNotCreated => "Output file was not created"
  | Cause.outputEmpty => "Output file is empty"
  | Cause.execFault msg => msg

/-- The catch block of `processAnnotation` rethrows
`Video processing failed: ${error.message}`. -/
def wrapMessage (e : Cause) : String := "Video processing failed: " ++ e.message

/-- Oracle for one `ffmpeg.exec` invocation: it may throw, complete
without producing `output.mp4` (the engine can silently no-op), or write
`output.mp4` with the given byte length. -/
inductive ExecBehavior where
  | fault (msg : String)
  | silent
  | produce (size : Nat)
deriving DecidableEq, Repr

/-- State of the `VideoProcessor` instance: the `isLoaded` flag and the
engine's working storage under its two fixed names (`input` is presence
of `input.mp4`; `output` is the byte length of `output.mp4` when it
exists). -/
structure EngineState where
  isLoaded : Bool
  input : Bool
  output : Option Nat
deriving DecidableEq, Repr

/-- Observable events of a batch run: a progress callback invocation
`(percent, currentIndex)`, the start of one annotation's processing, an
engine load, and a working-storage write. -/
inductive Event where
  | progress (pct : ℚ) (index : Nat)
  | attempt (index : Nat)
  | engineInit
  | storageWrite (name : String)
deriving DecidableEq, Repr

/-- The `finally` block of `processAnnotation`:
`try { deleteFile('input.mp4'); deleteFile('output.mp4') } catch {}`.
`deleteFile` rejects when the file is absent, so a failing first delete
skips the second; the surrounding catch swallows either failure. -/
def cleanupFS (st : EngineState) : EngineState :=
  if st.input then
    let st1 := { st with input := false }
    match st1.output with
    | some _ => { st1 with output := none }
    | none => st1
  else st

/-- The body of the `try` block of `processAnnotation` after the input
file has been staged: resolution check, coordinate mapping, duration
validation, `ffmpeg.exec` (via the oracle), output-existence check and
empty-output check, in source order.  Returns the engine state before
cleanup together with the result (output byte length on success). -/
def annStep (st1 : EngineState) (ann : Annotation)
    (canvasResolution videoResolution : Option Resolution)
    (beh : ExecBehavior) : EngineState × Except Cause Nat :=
  match videoResolution, canvasResolution with
  | some videoRes, some canvasRes =>
    if canvasRes.width = 0 ∨ canvasRes.height = 0 then
      (st1, Except.error Cause.missingResolutionInfo)
    else
      let _sc := mapCrop ann.cropArea canvasRes videoRes
      let duration := ann.timeRange.endTime - ann.timeRange.start
      if duration ≤ 0 ∨ 3600 < duration then
        (st1, Except.error Cause.invalidDuration)
      else
        match beh with
        | ExecBehavior.fault msg => (st1, Except.error (Cause.execFault msg))
        | ExecBehavior.silent =>
          match st1.output with
          | none => (st1, Except.error Cause.outputNotCreated)
          | some size =>
            if size = 0 then (st1, Except.error Cause.outputEmpty)
            else (st1, Except.ok size)
        | ExecBehavior.produce size =>
          let st2 := { st1 with output := some size }
          if size = 0 then (st2, Except.error Cause.outputEmpty)
          else (st2, Except.ok size)
  | _, _ => (st1, Except.error Cause.missingResolutionInfo)

/-- Result of one `processAnnotation` call: final engine state, emitted
events, and either the output byte length or the failure cause. -/
structure AnnOut where
  state : EngineState
  events : List Event
  result : Except Cause Nat
deriving Repr

/-- `VideoProcessor.processAnnotation` (videoProcessor.ts): load the
engine on first use, stage the source bytes as `input.mp4`, run the try
block (`annStep`), and always run the cleanup in `finally`.  The model
assumes the engine load and the input staging succeed; every exit path
of the try block is covered. -/
def processAnnotation (st : EngineState) (ann : Annotation)
    (canvasResolution videoResolution : Option Resolution)
    (beh : ExecBehavior) : AnnOut :=
  let evs : List Event :=
    (if st.isLoaded then [] else [Event.engineInit]) ++ [Event.storageWrite ("input.mp4")]
  let st1 : EngineState := { st with isLoaded := true, input := true }
  let step := annStep st1 ann canvasResolution videoResolution beh
  { state := cleanupFS step.1, events := evs, result := step.2 }

/-- The resolution guard of `processAnnotation`:
`!videoResolution || !canvasResolution || !canvasResolution.width || !canvasResolution.height`
(a zero number is falsy in JavaScript). -/
def missingResolution (videoResolution canvasResolution : Option Resolution) : Bool :=
  match videoResolution, canvasResolution with
  | none, _ => true
  | _, none => true
  | some _, some c => decide (c.width = 0) || decide (c.height = 0)

/-- Result of one `processMultipleAnnotations` call. -/
structure BatchOut where
  state : EngineState
  events : List Event
  result : Except Cause (List (String × Nat))
deriving Repr

/-- The loop of `processMultipleAnnotations`: for each annotation report
progress `((i / total) * 100, i)`, process it, and push
`(filename, blob)`; a rejection propagates immediately (the local
`results` array is abandoned).  After the loop report `(100, total)`.
`i` is the loop counter and `n` the total count. -/
def runBatch (st : EngineState) (anns : List Annotation) (i n : Nat)
    (canvasResolution videoResolution : Option Resolution)
    (eb : Nat → ExecBehavior) : BatchOut :=
  match anns with
  | [] => { state := st, events := [Event.progress 100 n], result := Except.ok [] }
  | ann :: rest =>
    let pre : List Event := [Event.progress (((i : ℚ) / (n : ℚ)) * 100) i, Event.attempt i]
    let r1 := processAnnotation st ann canvasResolution videoResolution (eb i)
    match r1.result with
    | Except.error e => { state := r1.state, events := pre ++ r1.events, result := Except.error e }
    | Except.ok size =>
      let r2 := runBatch r1.state rest (i + 1) n canvasResolution videoResolution eb
      { state := r2.state
        events := pre ++ r1.events ++ r2.events
        result :=
          match r2.result with
          | Except.error e => Except.error e
          | Except.ok tl => Except.ok ((ann.filename, size) :: tl) }

/-- `VideoProcessor.processMultipleAnnotations`. -/
def processMultipleAnnotations (st : EngineState) (anns : List Annotation)
    (canvasResolution videoResolution : Option Resolution)
    (eb : Nat → ExecBehavior) : BatchOut :=
  runBatch st anns 0 anns.length canvasResolution videoResolution eb

/-- The progress-callback invocations recorded in a trace, in order. -/
def progressPairs (evs : List Event) : List (ℚ × Nat) :=
  evs.filterMap fun e =>
    match e with
    | Event.progress p i => some (p, i)
    | _ => none

/-- The indices of the annotations whose processing was started, in
order. -/
def attemptsOf (evs : List Event) : List Nat :=
  evs.filterMap fun e =>
    match e with
    | Event.attempt i => some i
    | _ => none

/-- The progress pair reported before item `j` of a batch of `n`. -/
def percentOf (n j : Nat) : ℚ × Nat := (((j : ℚ) / (n : ℚ)) * 100, j)

/-- The failure causes one `processAnnotation` call can surface, given
its exec oracle: one of the four fixed validation/output errors, or the
subsystem's own fault message. -/
def causeAllowed (e : Cause) (beh : ExecBehavior) : Prop :=
  e = Cause.missingResolutionInfo ∨ e = Cause.invalidDuration ∨
    e = Cause.outputNotCreated ∨ e = Cause.outputEmpty ∨
    ∃ msg, beh = ExecBehavior.fault msg ∧ e = Cause.execFault msg

lemma processAnnotation_events (st : EngineState) (ann : Annotation)
    (c v : Option Resolution) (beh : ExecBehavior) :
    ( processAnnotation st ann c v beh).events =
      (if st.isLoaded then [] else [Event.engineInit]) ++ [Event.storageWrite ("input.mp4")] :=
  rfl

lemma progressPairs_processAnnotation (st : EngineState) (ann : Annotation)
    (c v : Option Resolution) (beh : ExecBehavior) :
    progressPairs ( processAnnotation st ann c v beh).events = [] := by
  rw [processAnnotation_events]
  cases st.isLoaded <;> simp [progressPairs]

lemma attemptsOf_processAnnotation (st : EngineState) (ann : Annotation)
    (c v : Option Resolution) (beh : ExecBehavior) :
    attemptsOf ( processAnnotation st ann c v beh).events = [] := by
  rw [processAnnotation_events]
  cases st.isLoaded <;> simp [attemptsOf]

lemma annStep_error_cause (st1 : EngineState) (ann : Annotation)
    (c v : Option Resolution) (beh : ExecBehavior) (e : Cause)
    (h : (annStep st1 ann c v beh).2 = Except.error e) :
    causeAllowed e beh := by
  rcases st1 with ⟨ld, inp, out⟩
  rcases v with _ | vr <;> rcases c with _ | cr <;> cases beh <;> rcases out with _ | size <;>
    simp only [annStep, causeAllowed] at h ⊢ <;>
    (try split_ifs at h) <;>
    simp_all

lemma processAnnotation_error_cause (st : EngineState) (ann : Annotation)
    (c v : Option Resolution) (beh : ExecBehavior) (e : Cause)
    (h : ( processAnnotation st ann c v beh).result = Except.error e) :
    causeAllowed e beh :=
  annStep_error_cause _ ann c v beh e h

lemma attemptsOf_append (xs ys : List Event) :
    attemptsOf (xs ++ ys) = attemptsOf xs ++ attemptsOf ys := by
  simp [attemptsOf]

lemma progressPairs_append (xs ys : List Event) :
    progressPairs (xs ++ ys) = progressPairs xs ++ progressPairs ys := by
  simp [progressPairs]

lemma runBatch_nil (st : EngineState) (i n : Nat) (c v : Option Resolution)
    (eb : Nat → ExecBehavior) :
    runBatch st [] i n c v eb =
      { state := st, events := [Event.progress 100 n], result := Except.ok [] } :=
  rfl

lemma runBatch_cons_error (st : EngineState) (ann : Annotation) (rest : List Annotation)
    (i n : Nat) (c v : Option Resolution) (eb : Nat → ExecBehavior) (e : Cause)
    (hr : ( processAnnotation st ann c v (eb i)).result = Except.error e) :
    runBatch st (ann :: rest) i n c v eb =
      { state := ( processAnnotation st ann c v (eb i)).state
        events := [Event.progress (((i : ℚ) / (n : ℚ)) * 100) i, Event.attempt i] ++
          ( processAnnotation st ann c v (eb i)).events
        result := Except.error e } := by
  simp only [runBatch, hr]

lemma runBatch_cons_ok (st : EngineState) (ann : Annotation) (rest : List Annotation)
    (i n : Nat) (c v : Option Resolution) (eb : Nat → ExecBehavior) (size : Nat)
    (hr : ( processAnnotation st ann c v (eb i)).result = Except.ok size) :
    runBatch st (ann :: rest) i n c v eb =
      { state := (runBatch ( processAnnotation st ann c v (eb i)).state rest (i + 1) n c v eb).state
        events := [Event.progress (((i : ℚ) / (n : ℚ)) * 100) i, Event.attempt i] ++
          ( processAnnotation st ann c v (eb i)).events ++
          (runBatch ( processAnnotation st ann c v (eb i)).state rest (i + 1) n c v eb).events
        result :=
          match (runBatch ( processAnnotation st ann c v (eb i)).state rest (i + 1) n c v eb).result with
          | Except.error e => Except.error e
          | Except.ok tl => Except.ok ((ann.filename, size) :: tl) } := by
  simp only [runBatch, hr]

/-- Full characterization of one batch run, by induction on the
remaining annotations: either every item succeeded (full result list,
one attempt per item, progress `(i/n)*100` before item `i` and the final
`(100, n)`), or some item `j` failed, the loop stopped there, and the
surfaced error is that item's own cause. -/
lemma runBatch_spec (c v : Option Resolution) (eb : Nat → ExecBehavior) :
    ∀ (anns : List Annotation) (st : EngineState) (i n : Nat), i + anns.length = n →
      (∃ l, (runBatch st anns i n c v eb).result = Except.ok l ∧
          l.length = anns.length ∧
          attemptsOf (runBatch st anns i n c v eb).events = List.range' i anns.length ∧
          progressPairs (runBatch st anns i n c v eb).events =
            (List.range' i anns.length).map (percentOf n) ++ [((100 : ℚ), n)]) ∨
      (∃ j e, j < anns.length ∧
          (runBatch st anns i n c v eb).result = Except.error e ∧
          causeAllowed e (eb (i + j)) ∧
          attemptsOf (runBatch st anns i n c v eb).events = List.range' i (j + 1) ∧
          progressPairs (runBatch st anns i n c v eb).events =
            (List.range' i (j + 1)).map (percentOf n)) := by
  intro anns
  induction anns with
  | nil =>
    intro st i n _
    left
    refine ⟨[], rfl, rfl, ?_, ?_⟩ <;> simp [runBatch_nil, attemptsOf, progressPairs]
  | cons ann rest ih =>
    intro st i n h
    have hlen : (i + 1) + rest.length = n := by
      simpa [Nat.add_comm, Nat.add_assoc, Nat.add_left_comm] using h
    rcases hr : ( processAnnotation st ann c v (eb i)).result with e | size
    · right
      refine ⟨0, e, Nat.succ_pos _, ?_, ?_, ?_, ?_⟩
      · rw [runBatch_cons_error st ann rest i n c v eb e hr]
      · simpa using processAnnotation_error_cause _ _ _ _ _ _ hr
      · rw [runBatch_cons_error st ann rest i n c v eb e hr]
        simp only [attemptsOf_append, attemptsOf_processAnnotation]
        simp [attemptsOf]
      · rw [runBatch_cons_error st ann rest i n c v eb e hr]
        simp only [progressPairs_append, progressPairs_processAnnotation]
        simp [progressPairs, percentOf]
    · rw [runBatch_cons_ok st ann rest i n c v eb size hr]
      rcases ih (( processAnnotation st ann c v (eb i)).state) (i + 1) n hlen with
        ⟨l, hok, hl, hatt, hpp⟩ | ⟨j, e, hj, herr, hca, hatt, hpp⟩
      · left
        refine ⟨(ann.filename, size) :: l, ?_, ?_, ?_, ?_⟩
        · simp only [hok]
        · simp [hl]
        · simp only [attemptsOf_append, attemptsOf_processAnnotation, hatt]
          simp [attemptsOf, List.range'_succ]
        · simp only [progressPairs_append, progressPairs_processAnnotation, hpp]
          simp [progressPairs, List.range'_succ, percentOf]
      · right
        refine ⟨j + 1, e, by omega, ?_, ?_, ?_, ?_⟩
        · simp only [herr]
        · have : i + 1 + j = i + (j + 1) := by omega
          rw [← this]; exact hca
        · simp only [attemptsOf_append, attemptsOf_processAnnotation, hatt]
          simp [attemptsOf, List.range'_succ]
        · simp only [progressPairs_append, progressPairs_processAnnotation, hpp]
          simp [progressPairs, List.range'_succ, percentOf]

lemma processAnnotation_result (st : EngineState) (ann : Annotation)
    (c v : Option Resolution) (beh : ExecBehavior) :
    ( processAnnotation st ann c v beh).result =
      (annStep { st with isLoaded := true, input := true } ann c v beh).2 :=
  rfl

lemma annStep_state_input (st1 : EngineState) (ann : Annotation)
    (c v : Option Resolution) (beh : ExecBehavior) :
    ((annStep st1 ann c v beh).1).input = st1.input := by
  rcases st1 with ⟨ld, inp, out⟩
  rcases v with _ | vr <;> rcases c with _ | cr <;> cases beh <;> rcases out with _ | size <;>
    simp only [annStep] <;> (try split_ifs) <;> rfl

/-- C6.  On every exit path of an extraction — success, invalid
duration, missing resolution, missing/empty output or subsystem fault —
the staged `input.mp4` and any `output.mp4` are removed from the
engine's working storage before returning, whatever state the storage
started in, so a subsequent extraction on the same engine instance never
observes residue from a prior call. -/
theorem c6_cleanup_invariant (st : EngineState) (ann : Annotation)
    (c v : Option Resolution) (beh : ExecBehavior) :
    (( processAnnotation st ann c v beh).state).input = false ∧
      (( processAnnotation st ann c v beh).state).output = none := by
  have hinp : ((annStep { st with isLoaded := true, input := true } ann c v beh).1).input = true := by
    rw [annStep_state_input]
  have hstate : ( processAnnotation st ann c v beh).state =
      cleanupFS (annStep { st with isLoaded := true, input := true } ann c v beh).1 := rfl
  rw [hstate]
  rcases hout : ((annStep { st with isLoaded := true, input := true } ann c v beh).1).output with _ | sz <;>
    simp [cleanupFS, hinp, hout]

/-- C4.  With the resolution guard satisfied, `processAnnotation` fails
with `Invalid duration` exactly when `end - start` lies outside
`(0, 3600]`: non-positive durations and durations above 3600 are
rejected, the boundary 3600 is accepted by the duration check. -/
theorem c4_duration_validation (st : EngineState) (ann : Annotation)
    (c v : Option Resolution) (beh : ExecBehavior)
    (hres : missingResolution v c = false) :
    ( processAnnotation st ann c v beh).result = Except.error Cause.invalidDuration ↔
      (ann.timeRange.endTime - ann.timeRange.start ≤ 0 ∨
        3600 < ann.timeRange.endTime - ann.timeRange.start) := by
  rcases v with _ | vr
  · simp [missingResolution] at hres
  rcases c with _ | cr
  · simp [missingResolution] at hres
  have hcw : ¬(cr.width = 0 ∨ cr.height = 0) := by
    simpa [missingResolution] using hres
  rw [processAnnotation_result]
  rcases st with ⟨ld, inp, out⟩
  by_cases hd : ann.timeRange.endTime - ann.timeRange.start ≤ 0 ∨
      3600 < ann.timeRange.endTime - ann.timeRange.start
  · cases beh <;> rcases out with _ | sz <;>
      simp only [annStep] <;> rw [if_neg hcw, if_pos hd] <;> simp_all
  · cases beh <;> rcases out with _ | sz <;>
      simp only [annStep] <;> rw [if_neg hcw, if_neg hd] <;>
      (try split_ifs) <;> simp_all

/-- C5 (amended).  `processAnnotation` fails with
`Missing resolution info` exactly when the guard
`!videoResolution || !canvasResolution || !canvasResolution.width || !canvasResolution.height`
fires: an absent resolution object or a zero canvas dimension is
rejected, while a present video resolution with zero width or height is
not checked. -/
theorem c5_missing_resolution_iff (st : EngineState) (ann : Annotation)
    (c v : Option Resolution) (beh : ExecBehavior) :
    ( processAnnotation st ann c v beh).result = Except.error Cause.missingResolutionInfo ↔
      missingResolution v c = true := by
  rw [processAnnotation_result]
  rcases st with ⟨ld, inp, out⟩
  rcases v with _ | vr <;> rcases c with _ | cr
  · simp [annStep, missingResolution]
  · simp [annStep, missingResolution]
  · simp [annStep, missingResolution]
  · by_cases hcw : cr.width = 0 ∨ cr.height = 0
    · cases beh <;> rcases out with _ | sz <;>
        simp only [annStep, missingResolution] <;> rw [if_pos hcw] <;> simp_all
    · cases beh <;> rcases out with _ | sz <;>
        simp only [annStep, missingResolution] <;> rw [if_neg hcw] <;>
        (try split_ifs) <;> simp_all

lemma evenInt_cast_two_mul (r : ℤ) : EvenInt ((2 * r : ℤ) : ℚ) :=
  ⟨r, by push_cast; ring⟩

lemma max_zero_two_mul (r : ℤ) : max 0 (r * 2) = 2 * max 0 r := by omega

lemma max_thirtytwo_two_mul (r : ℤ) : max 32 (r * 2) = 2 * max 16 r := by omega

lemma evenInt_min (p q : ℚ) (hp : EvenInt p) (hq : EvenInt q) : EvenInt (min p q) := by
  rcases hp with ⟨a, ha⟩
  rcases hq with ⟨b, hb⟩
  subst ha hb
  rcases le_total (a : ℚ) (b : ℚ) with h | h
  · refine ⟨a, ?_⟩
    rw [min_eq_left (by linarith)]
  · refine ⟨b, ?_⟩
    rw [min_eq_right (by linarith)]

lemma mapCrop_x (crop : CropArea) (canvasR videoR : Resolution) :
    (mapCrop crop canvasR videoR).x =
      ((max 0 (jround (crop.x * (videoR.width / canvasR.width) / 2) * 2) : ℤ) : ℚ) :=
  rfl

lemma mapCrop_y (crop : CropArea) (canvasR videoR : Resolution) :
    (mapCrop crop canvasR videoR).y =
      ((max 0 (jround (crop.y * (videoR.height / canvasR.height) / 2) * 2) : ℤ) : ℚ) :=
  rfl

lemma mapCrop_width (crop : CropArea) (canvasR videoR : Resolution) :
    (mapCrop crop canvasR videoR).width =
      min ((max 32 (jround (crop.width * (videoR.width / canvasR.width) / 2) * 2) : ℤ) : ℚ)
        (videoR.width - (mapCrop crop canvasR videoR).x) :=
  rfl

lemma mapCrop_height (crop : CropArea) (canvasR videoR : Resolution) :
    (mapCrop crop canvasR videoR).height =
      min ((max 32 (jround (crop.height * (videoR.height / canvasR.height) / 2) * 2) : ℤ) : ℚ)
        (videoR.height - (mapCrop crop canvasR videoR).y) :=
  rfl

/-- One side of the final boundary check of `mapCrop`: the clamped side
keeps the rectangle inside `[0, V]`, and the lower bound 32 on the side
can only be lost when the side was cut to reach the boundary exactly. -/
lemma boundary_side (w0 x0 : ℤ) (V : ℚ) (hw : 32 ≤ w0) (hx : 0 ≤ x0) :
    (0 : ℚ) ≤ (x0 : ℚ) ∧
      (x0 : ℚ) + min ((w0 : ℤ) : ℚ) (V - (x0 : ℚ)) ≤ V ∧
      (32 ≤ min ((w0 : ℤ) : ℚ) (V - (x0 : ℚ)) ∨
        (x0 : ℚ) + min ((w0 : ℤ) : ℚ) (V - (x0 : ℚ)) = V) := by
  refine ⟨by exact_mod_cast hx, ?_, ?_⟩
  · have h := min_le_right ((w0 : ℤ) : ℚ) (V - (x0 : ℚ))
    linarith
  · rcases le_total ((w0 : ℤ) : ℚ) (V - (x0 : ℚ)) with h | h
    · left
      rw [min_eq_left h]
      exact_mod_cast hw
    · right
      rw [min_eq_right h]
      ring

/-- C2 (amended).  For all crop areas and non-zero resolutions the
mapped rectangle satisfies `0 ≤ x`, `0 ≤ y`, `x + width ≤ videoWidth`,
`y + height ≤ videoHeight`, the boundary being met by reducing
width/height (never shifting x/y); width and height are at least 32
except that the final boundary reduction may cut a side below 32, in
which case that side reaches the video boundary exactly
(`x + width = videoWidth`, resp. `y + height = videoHeight`). -/
theorem c2_boundary_containment (crop : CropArea) (canvasR videoR : Resolution)
    (hcw : canvasR.width ≠ 0) (hch : canvasR.height ≠ 0)
    (hvw : videoR.width ≠ 0) (hvh : videoR.height ≠ 0) :
    0 ≤ (mapCrop crop canvasR videoR).x ∧ 0 ≤ (mapCrop crop canvasR videoR).y ∧
      (mapCrop crop canvasR videoR).x + (mapCrop crop canvasR videoR).width ≤ videoR.width ∧
      (mapCrop crop canvasR videoR).y + (mapCrop crop canvasR videoR).height ≤ videoR.height ∧
      (32 ≤ (mapCrop crop canvasR videoR).width ∨
        (mapCrop crop canvasR videoR).x + (mapCrop crop canvasR videoR).width = videoR.width) ∧
      (32 ≤ (mapCrop crop canvasR videoR).height ∨
        (mapCrop crop canvasR videoR).y + (mapCrop crop canvasR videoR).height = videoR.height) := by
  have hw := boundary_side
    (max 32 (jround (crop.width * (videoR.width / canvasR.width) / 2) * 2))
    (max 0 (jround (crop.x * (videoR.width / canvasR.width) / 2) * 2))
    videoR.width (le_max_left _ _) (le_max_left _ _)
  have hh := boundary_side
    (max 32 (jround (crop.height * (videoR.height / canvasR.height) / 2) * 2))
    (max 0 (jround (crop.y * (videoR.height / canvasR.height) / 2) * 2))
    videoR.height (le_max_left _ _) (le_max_left _ _)
  rw [mapCrop_x, mapCrop_y, mapCrop_width, mapCrop_height, mapCrop_x, mapCrop_y]
  exact ⟨hw.1, hh.1, hw.2.1, hh.2.1, hw.2.2, hh.2.2⟩

/-- Witness for C2 at the spec's own example: canvas 640×360, video
1920×1080, crop (50, 50, 300, 200). -/
theorem c2_boundary_containment_witness :
    ((⟨640, 360⟩ : Resolution)).width ≠ 0 ∧ ((⟨640, 360⟩ : Resolution)).height ≠ 0 ∧
      ((⟨1920, 1080⟩ : Resolution)).width ≠ 0 ∧ ((⟨1920, 1080⟩ : Resolution)).height ≠ 0 ∧
      (0 ≤ (mapCrop ⟨50, 50, 300, 200⟩ ⟨640, 360⟩ ⟨1920, 1080⟩).x ∧
        0 ≤ (mapCrop ⟨50, 50, 300, 200⟩ ⟨640, 360⟩ ⟨1920, 1080⟩).y ∧
        (mapCrop ⟨50, 50, 300, 200⟩ ⟨640, 360⟩ ⟨1920, 1080⟩).x +
            (mapCrop ⟨50, 50, 300, 200⟩ ⟨640, 360⟩ ⟨1920, 1080⟩).width ≤
          ((⟨1920, 1080⟩ : Resolution)).width ∧
        (mapCrop ⟨50, 50, 300, 200⟩ ⟨640, 360⟩ ⟨1920, 1080⟩).y +
            (mapCrop ⟨50, 50, 300, 200⟩ ⟨640, 360⟩ ⟨1920, 1080⟩).height ≤
          ((⟨1920, 1080⟩ : Resolution)).height ∧
        (32 ≤ (mapCrop ⟨50, 50, 300, 200⟩ ⟨640, 360⟩ ⟨1920, 1080⟩).width ∨
          (mapCrop ⟨50, 50, 300, 200⟩ ⟨640, 360⟩ ⟨1920, 1080⟩).x +
              (mapCrop ⟨50, 50, 300, 200⟩ ⟨640, 360⟩ ⟨1920, 1080⟩).width =
            ((⟨1920, 1080⟩ : Resolution)).width) ∧
        (32 ≤ (mapCrop ⟨50, 50, 300, 200⟩ ⟨640, 360⟩ ⟨1920, 1080⟩).height ∨
          (mapCrop ⟨50, 50, 300, 200⟩ ⟨640, 360⟩ ⟨1920, 1080⟩).y +
              (mapCrop ⟨50, 50, 300, 200⟩ ⟨640, 360⟩ ⟨1920, 1080⟩).height =
            ((⟨1920, 1080⟩ : Resolution)).height)) :=
  ⟨by norm_num, by norm_num, by norm_num, by norm_num,
    c2_boundary_containment ⟨50, 50, 300, 200⟩ ⟨640, 360⟩ ⟨1920, 1080⟩
      (by norm_num) (by norm_num) (by norm_num) (by norm_num)⟩

/-- Counterexample to C2 as stated: for a crop at the right edge of the
canvas (x=99, width=1 on a 100×100 canvas mapped to a 100×100 video)
the mapped width is 0, violating the claimed bound `width ≥ 32`. -/
theorem c2_min_size_counterexample :
    (mapCrop ⟨99, 0, 1, 1⟩ ⟨100, 100⟩ ⟨100, 100⟩).width = 0 ∧
      ¬(32 ≤ (mapCrop ⟨99, 0, 1, 1⟩ ⟨100, 100⟩ ⟨100, 100⟩).width) := by
  have h : (mapCrop ⟨99, 0, 1, 1⟩ ⟨100, 100⟩ ⟨100, 100⟩).width = 0 := by
    simp only [mapCrop, jround]
    norm_num
  refine ⟨h, ?_⟩
  rw [h]
  norm_num

/-- C3 (amended).  The mapping scales x, y, width, height by the
per-axis factors and rounds each scaled value to the nearest even
integer via `Math.round(v / 2) * 2` (round-half-to-nearest, not
truncation); the output x and y are always even integers, and whenever
the video width (resp. height) is itself an even integer the final
boundary-reduced width (resp. height) is even as well.  (With an odd
video dimension the boundary reduction can produce an odd side — see
the counterexample.) -/
theorem c3_even_mapping (crop : CropArea) (canvasR videoR : Resolution) :
    EvenInt (mapCrop crop canvasR videoR).x ∧ EvenInt (mapCrop crop canvasR videoR).y ∧
      ((∃ j : ℤ, videoR.width = 2 * (j : ℚ)) → EvenInt (mapCrop crop canvasR videoR).width) ∧
      ((∃ j : ℤ, videoR.height = 2 * (j : ℚ)) →
        EvenInt (mapCrop crop canvasR videoR).height) := by
  have hx : EvenInt (mapCrop crop canvasR videoR).x := by
    rw [mapCrop_x, max_zero_two_mul]
    exact evenInt_cast_two_mul _
  have hy : EvenInt (mapCrop crop canvasR videoR).y := by
    rw [mapCrop_y, max_zero_two_mul]
    exact evenInt_cast_two_mul _
  refine ⟨hx, hy, ?_, ?_⟩
  · rintro ⟨j1, hW⟩
    rw [mapCrop_width]
    refine evenInt_min _ _ ?_ ?_
    · rw [max_thirtytwo_two_mul]
      exact evenInt_cast_two_mul _
    · rcases hx with ⟨k, hk⟩
      exact ⟨j1 - k, by rw [hW, hk]; push_cast; ring⟩
  · rintro ⟨j2, hH⟩
    rw [mapCrop_height]
    refine evenInt_min _ _ ?_ ?_
    · rw [max_thirtytwo_two_mul]
      exact evenInt_cast_two_mul _
    · rcases hy with ⟨k, hk⟩
      exact ⟨j2 - k, by rw [hH, hk]; push_cast; ring⟩

/-- Witness for C3 at canvas 640×360, video 1920×1080 (both video
dimensions even, so all four even-ness conclusions fire), crop
(50, 50, 300, 200). -/
theorem c3_even_mapping_witness :
    EvenInt (mapCrop ⟨50, 50, 300, 200⟩ ⟨640, 360⟩ ⟨1920, 1080⟩).x ∧
      EvenInt (mapCrop ⟨50, 50, 300, 200⟩ ⟨640, 360⟩ ⟨1920, 1080⟩).y ∧
      EvenInt (mapCrop ⟨50, 50, 300, 200⟩ ⟨640, 360⟩ ⟨1920, 1080⟩).width ∧
      EvenInt (mapCrop ⟨50, 50, 300, 200⟩ ⟨640, 360⟩ ⟨1920, 1080⟩).height :=
  ⟨(c3_even_mapping ⟨50, 50, 300, 200⟩ ⟨640, 360⟩ ⟨1920, 1080⟩).1,
    (c3_even_mapping ⟨50, 50, 300, 200⟩ ⟨640, 360⟩ ⟨1920, 1080⟩).2.1,
    (c3_even_mapping ⟨50, 50, 300, 200⟩ ⟨640, 360⟩ ⟨1920, 1080⟩).2.2.1 ⟨960, by norm_num⟩,
    (c3_even_mapping ⟨50, 50, 300, 200⟩ ⟨640, 360⟩ ⟨1920, 1080⟩).2.2.2 ⟨540, by norm_num⟩⟩

/-- Counterexample to C3 as stated: mapping crop (0, 0, 1, 1) from a
1×1 canvas onto a 45×45 video gives output width 45, an odd value — the
final boundary reduction `min(cropW, videoWidth - cropX)` breaks the
claimed all-outputs-even property when the video dimension is odd. -/
theorem c3_even_counterexample :
    (mapCrop ⟨0, 0, 1, 1⟩ ⟨1, 1⟩ ⟨45, 45⟩).width = 45 ∧
      ¬ EvenInt (mapCrop ⟨0, 0, 1, 1⟩ ⟨1, 1⟩ ⟨45, 45⟩).width := by
  have h : (mapCrop ⟨0, 0, 1, 1⟩ ⟨1, 1⟩ ⟨45, 45⟩).width = 45 := by
    simp only [mapCrop, jround]
    norm_num
  refine ⟨h, ?_⟩
  rw [h]
  rintro ⟨k, hk⟩
  have h45 : (45 : ℤ) = 2 * k := by exact_mod_cast hk
  omega

/-- A fresh engine: not loaded, empty working storage. -/
def st0 : EngineState := ⟨false, false, none⟩

def canvas0 : Option Resolution := some ⟨640, 360⟩

def video0 : Option Resolution := some ⟨1920, 1080⟩

/-- Exec oracle where every invocation writes a 7-byte output. -/
def execOk : Nat → ExecBehavior := fun _ => ExecBehavior.produce 7

/-- A valid annotation (duration 5 s). -/
def annGood : Annotation :=
  ⟨"a1", "hello", "", ⟨50, 50, 300, 200⟩, ⟨0, 5⟩, "clip001.mp4", false⟩

/-- An annotation with `start = end` (duration 0, rejected). -/
def annBad : Annotation :=
  ⟨"a2", "wave", "", ⟨50, 50, 300, 200⟩, ⟨2, 2⟩, "clip002.mp4", false⟩

/-- C1 (amended).  When a batch run rejects, some item `j` failed: the
loop attempted exactly items `0..j` (later annotations are never
attempted) and the surfaced error is item `j`'s own cause — one of the
four fixed validation/output errors or the subsystem's fault message,
none of which carries the failing annotation's id or filename; since the
run rejects, the artifacts of the earlier succeeded items are not
returned. -/
theorem c1_batch_abort (st : EngineState) (anns : List Annotation)
    (c v : Option Resolution) (eb : Nat → ExecBehavior) (e : Cause)
    (h : (processMultipleAnnotations st anns c v eb).result = Except.error e) :
    ∃ j, j < anns.length ∧
      attemptsOf (processMultipleAnnotations st anns c v eb).events = List.range' 0 (j + 1) ∧
      causeAllowed e (eb j) := by
  have hspec := runBatch_spec c v eb anns st 0 anns.length (Nat.zero_add _)
  unfold processMultipleAnnotations at h ⊢
  rcases hspec with ⟨l, hok, _, _, _⟩ | ⟨j, e', hj, herr, hca, hatt, _⟩
  · rw [hok] at h
    cases h
  · rw [herr] at h
    injection h with he
    subst he
    rw [Nat.zero_add] at hca
    exact ⟨j, hj, hatt, hca⟩

/-- Witness for C1: a one-item batch whose item has duration 0. -/
theorem c1_batch_abort_witness :
    (processMultipleAnnotations st0 [annBad] canvas0 video0 execOk).result =
        Except.error Cause.invalidDuration ∧
      (∃ j, j < ([annBad] : List Annotation).length ∧
        attemptsOf (processMultipleAnnotations st0 [annBad] canvas0 video0 execOk).events =
          List.range' 0 (j + 1) ∧
        causeAllowed Cause.invalidDuration (execOk j)) := by
  have hres : (processMultipleAnnotations st0 [annBad] canvas0 video0 execOk).result =
      Except.error Cause.invalidDuration := by
    norm_num [processMultipleAnnotations, runBatch, processAnnotation, annStep,
      st0, annBad, canvas0, video0, execOk]
  exact ⟨hres, c1_batch_abort _ _ _ _ _ _ hres⟩

/-- Counterexample to C1 as stated: in the batch (good, bad, good) the
first item succeeds and the second fails, yet the run's result is the
bare error — the first item's artifact is not returned alongside it —
the third item is never attempted (attempts are exactly 0 and 1), and
the surfaced message is the fixed string
`Video processing failed: Invalid duration`, which does not name the
failing annotation's id or filename. -/
theorem c1_partial_results_counterexample :
    (processMultipleAnnotations st0 [annGood, annBad, annGood] canvas0 video0 execOk).result =
        Except.error Cause.invalidDuration ∧
      attemptsOf
          (processMultipleAnnotations st0 [annGood, annBad, annGood] canvas0 video0 execOk).events =
        [0, 1] ∧
      wrapMessage Cause.invalidDuration = "Video processing failed: Invalid duration" := by
  refine ⟨?_, ?_, rfl⟩ <;>
    norm_num [processMultipleAnnotations, runBatch, processAnnotation, annStep, cleanupFS,
      attemptsOf, st0, annGood, annBad, canvas0, video0, execOk] <;>
    rfl

/-- C7 (amended).  In every non-empty batch run the progress callback
receives percentages, not fractions: the pairs delivered are exactly
`((i / total) * 100, i)` for `i = 0 .. m` (one before each attempted
item, in order), where `m = total` when the run succeeds — the final
invocation then being `(100, total)` — and the reported indices are
strictly increasing. -/
theorem c7_progress_reporting (st : EngineState) (anns : List Annotation)
    (c v : Option Resolution) (eb : Nat → ExecBehavior) (hn : 0 < anns.length) :
    ∃ m, m ≤ anns.length ∧
      progressPairs (processMultipleAnnotations st anns c v eb).events =
        (List.range' 0 (m + 1)).map (percentOf anns.length) ∧
      (∀ l, (processMultipleAnnotations st anns c v eb).result = Except.ok l →
        m = anns.length) ∧
      List.Chain' (fun a b => a < b)
        (List.map Prod.snd (progressPairs (processMultipleAnnotations st anns c v eb).events)) := by
  have hne : ((anns.length : ℚ)) ≠ 0 := Nat.cast_ne_zero.mpr (Nat.pos_iff_ne_zero.mp hn)
  have hspec := runBatch_spec c v eb anns st 0 anns.length (Nat.zero_add _)
  unfold processMultipleAnnotations
  rcases hspec with ⟨l, hok, _, _, hpp⟩ | ⟨j, e, hj, herr, _, _, hpp⟩
  · refine ⟨anns.length, le_refl _, ?_, fun _ _ => rfl, ?_⟩
    · rw [hpp, List.range'_1_concat, List.map_append]
      simp [percentOf, div_self hne]
    · rw [hpp, List.map_append, List.map_map]
      have hsnd : (Prod.snd ∘ percentOf anns.length) = fun j => j := by
        funext j
        simp [percentOf]
      rw [hsnd, List.map_id']
      have : List.range' 0 anns.length ++ List.map Prod.snd [((100 : ℚ), anns.length)] =
          List.range' 0 (anns.length + 1) := by
        rw [List.range'_1_concat]
        simp
      rw [this]
      exact (List.pairwise_lt_range' 0 (anns.length + 1)).chain'
  · refine ⟨j, by omega, hpp, ?_, ?_⟩
    · intro l hl
      rw [herr] at hl
      cases hl
    · rw [hpp, List.map_map]
      have hsnd : (Prod.snd ∘ percentOf anns.length) = fun j => j := by
        funext j
        simp [percentOf]
      rw [hsnd, List.map_id']
      exact (List.pairwise_lt_range' 0 (j + 1)).chain'

/-- Witness for C7: a two-item batch where both items succeed. -/
theorem c7_progress_reporting_witness :
    0 < ([annGood, annGood] : List Annotation).length ∧
      (∃ m, m ≤ ([annGood, annGood] : List Annotation).length ∧
        progressPairs
            (processMultipleAnnotations st0 [annGood, annGood] canvas0 video0 execOk).events =
          (List.range' 0 (m + 1)).map (percentOf ([annGood, annGood] : List Annotation).length) ∧
        (∀ l, (processMultipleAnnotations st0 [annGood, annGood] canvas0 video0 execOk).result =
            Except.ok l → m = ([annGood, annGood] : List Annotation).length) ∧
        List.Chain' (fun a b => a < b)
          (List.map Prod.snd
            (progressPairs
              (processMultipleAnnotations st0 [annGood, annGood] canvas0 video0 execOk).events))) :=
  ⟨by norm_num, c7_progress_reporting st0 [annGood, annGood] canvas0 video0 execOk (by norm_num)⟩

/-- Counterexample to C7 as stated: in a successful two-item batch the
callback before item 1 receives 50 — the percentage `(1/2)·100` — not
the fraction `1/2` the claim states. -/
theorem c7_fraction_counterexample :
    progressPairs (processMultipleAnnotations st0 [annGood, annGood] canvas0 video0 execOk).events =
        [((0 : ℚ), 0), ((50 : ℚ), 1), ((100 : ℚ), 2)] ∧
      (50 : ℚ) ≠ (1 : ℚ) / 2 := by
  constructor
  · norm_num [processMultipleAnnotations, runBatch, processAnnotation, annStep, cleanupFS,
      progressPairs, st0, annGood, canvas0, video0, execOk]
    rfl
  · norm_num

/-- C10.  On the empty annotation list the batch succeeds with the empty
result list, fires exactly one progress callback `(100, 0)`, leaves the
engine state untouched, and performs no engine initialization and no
working-storage write. -/
theorem c10_empty_batch (st : EngineState) (c v : Option Resolution)
    (eb : Nat → ExecBehavior) :
    processMultipleAnnotations st ([] : List Annotation) c v eb =
        { state := st, events := [Event.progress 100 0], result := Except.ok [] } ∧
      Event.engineInit ∉ (processMultipleAnnotations st ([] : List Annotation) c v eb).events ∧
      ∀ s, Event.storageWrite s ∉ (processMultipleAnnotations st ([] : List Annotation) c v eb).events := by
  refine ⟨rfl, ?_, ?_⟩ <;> simp [processMultipleAnnotations, runBatch]

/-- JavaScript truthiness of a nullable string (`!token`): absent or
empty is falsy. -/
def jsTruthyStr (s : Option String) : Bool :=
  match s with
  | none => false
  | some str => decide (str ≠ "")

/-- The body of the upload loop in `uploadToDrive` (`Timeline.tsx`):
items are visited sequentially in list order; item `i`'s outcome is
`uploadResponse.ok` (`net i`) — a failed upload is caught by the
per-item catch and the loop continues.  Returns the attempted indices in
order and the per-item `(filename, delivered?)` outcomes. -/
def uploadLoop (net : Nat → Bool) : List (String × Nat) → Nat → List Nat × List (String × Bool)
  | [], _ => ([], [])
  | r :: rest, i =>
    let out := uploadLoop net rest (i + 1)
    (i :: out.1, (r.1, net i) :: out.2)

/-- `uploadToDrive` (`Timeline.tsx`): requires a stored bearer token and
a selected folder id (`!token || !driveFolderId` throws
`Google Drive not connected` before any item is attempted), then runs
the continue-on-error upload loop over all artifacts. -/
def uploadToDrive (token driveFolderId : Option String) (net : Nat → Bool)
    (results : List (String × Nat)) : List Nat × Except String (List (String × Bool)) :=
  if jsTruthyStr token = false ∨ jsTruthyStr driveFolderId = false then
    ([], Except.error ("Google Drive not connected"))
  else
    let out := uploadLoop net results 0
    (out.1, Except.ok out.2)

lemma uploadLoop_spec (net : Nat → Bool) :
    ∀ (l : List (String × Nat)) (i : Nat),
      uploadLoop net l i =
        (List.range' i l.length, (List.enumFrom i l).map fun p => (p.2.1, net p.1))
  | [], i => by simp [uploadLoop]
  | r :: rest, i => by
    simp [uploadLoop, uploadLoop_spec net rest (i + 1), List.range'_succ]

/-- C8.  Remote delivery: with a bearer credential and folder present,
the loop attempts every artifact exactly once, sequentially in list
order (attempted indices are `0 .. n-1`), and item `k`'s outcome is its
own upload response (`net k`) — an individual failure is recorded in the
outcome list and never prevents the attempt of item `k+1`; with no
credential (or no folder) the call fails with
`Google Drive not connected` and attempts no item. -/
theorem c8_upload_continue_on_error (token driveFolderId : Option String)
    (net : Nat → Bool) (results : List (String × Nat)) :
    uploadToDrive token driveFolderId net results =
      if jsTruthyStr token = true ∧ jsTruthyStr driveFolderId = true then
        (List.range results.length,
          Except.ok (results.enum.map fun p => (p.2.1, net p.1)))
      else ([], Except.error ("Google Drive not connected")) := by
  by_cases h : jsTruthyStr token = true ∧ jsTruthyStr driveFolderId = true
  · rw [if_pos h]
    unfold uploadToDrive
    rw [if_neg (by simp [h.1, h.2])]
    simp [uploadLoop_spec, List.range_eq_range', List.enum]
  · rw [if_neg h]
    unfold uploadToDrive
    have h' : jsTruthyStr token = false ∨ jsTruthyStr driveFolderId = false := by
      rcases Bool.eq_false_or_eq_true (jsTruthyStr token) with ht | ht
      · rcases Bool.eq_false_or_eq_true (jsTruthyStr driveFolderId) with hf | hf
        · exact absurd ⟨ht, hf⟩ h
        · exact Or.inr hf
      · exact Or.inl ht
    rw [if_pos h']

/-- One row of an imported annotation table (`parseExcelData` in
`ExcelUploader`).  A `none` cell is an absent column
(`row[...] === undefined`); numeric cells carry their numeric value.
The `Created At` cell builds a wall-clock `Date` in the source and is
not modelled. -/
structure Row where
  idVideo : Option String
  meaning : Option String
  posTag : Option String
  sideView : Option Bool
  startTime : Option ℚ
  endTime : Option ℚ
  cropX : Option ℚ
  cropY : Option ℚ
  cropW : Option ℚ
  cropH : Option ℚ
deriving DecidableEq, Repr

/-- JavaScript falsiness of a string cell (`!row['ID_video']`): absent
or empty. -/
def strFalsy (s : Option String) : Bool :=
  match s with
  | none => true
  | some str => decide (str = "")

/-- JavaScript `Number(v) || d` on a numeric value: a zero value falls
back to the default `d`. -/
def jsOr (v d : ℚ) : ℚ := if v = 0 then d else v

/-- One iteration of the `parseExcelData` row loop: the required-field
check (`!row['ID_video'] || !row['Meaning'] || start === undefined ||
... || row['Crop Height'] === undefined` skips the row), construction of
the annotation with the `|| default` coercions of the source, then the
two validation checks (`start >= end` and non-positive crop dimensions
skip the row).  The source id `imported_${Date.now()}_${Math.random()}`
is wall-clock/randomness, modelled by the constant `"imported"`. -/
def parseRow (row : Row) : Option Annotation :=
  if strFalsy row.idVideo || strFalsy row.meaning ||
      row.startTime.isNone || row.endTime.isNone ||
      row.cropX.isNone || row.cropY.isNone || row.cropW.isNone || row.cropH.isNone then
    none
  else
    let ann : Annotation :=
      { id := "imported"
        label := ((row.meaning.getD "")).trim
        postag := ((row.posTag.getD "")).trim
        cropArea :=
          { x := jsOr (row.cropX.getD 0) 0
            y := jsOr (row.cropY.getD 0) 0
            width := jsOr (row.cropW.getD 0) 100
            height := jsOr (row.cropH.getD 0) 100 }
        timeRange :=
          { start := jsOr (row.startTime.getD 0) 0
            endTime := jsOr (row.endTime.getD 0) 1 }
        filename := ((row.idVideo.getD "")).trim
        sideView := decide (row.sideView = some true) }
    if ann.timeRange.endTime ≤ ann.timeRange.start then none
    else if ann.cropArea.width ≤ 0 ∨ ann.cropArea.height ≤ 0 then none
    else some ann

/-- The row loop of `parseExcelData`: valid rows are pushed in order,
invalid rows are skipped (`continue`). -/
def parseExcelData : List Row → List Annotation
  | [] => []
  | row :: rest =>
    match parseRow row with
    | some ann => ann :: parseExcelData rest
    | none => parseExcelData rest

/-- C9 (amended).  The import keeps exactly the rows that pass the
raw-cell presence check and whose *coerced* values are valid: a row
yields an annotation iff its identifier and label cells are present and
non-empty, all six numeric cells are present, and — after the source's
`|| default` coercions, under which an absent-or-zero end time becomes 1
and a zero crop width/height becomes 100 — the start time is strictly
below the end time and both crop dimensions are positive.  A row with
crop width or height 0 is therefore kept (with the 100 default), not
skipped. -/
theorem c9_import_row_filter (data : List Row) (row : Row) :
    parseExcelData data = data.filterMap parseRow ∧
      ((parseRow row).isSome ↔
        (strFalsy row.idVideo = false ∧ strFalsy row.meaning = false ∧
          row.startTime.isSome = true ∧ row.endTime.isSome = true ∧
          row.cropX.isSome = true ∧ row.cropY.isSome = true ∧
          row.cropW.isSome = true ∧ row.cropH.isSome = true ∧
          jsOr (row.startTime.getD 0) 0 < jsOr (row.endTime.getD 0) 1 ∧
          0 < jsOr (row.cropW.getD 0) 100 ∧ 0 < jsOr (row.cropH.getD 0) 100)) := by
  constructor
  · induction data with
    | nil => rfl
    | cons r rest ih =>
      rcases h : parseRow r with _ | ann <;> simp [parseExcelData, h, ih]
  · unfold parseRow
    by_cases hguard : (strFalsy row.idVideo || strFalsy row.meaning ||
        row.startTime.isNone || row.endTime.isNone ||
        row.cropX.isNone || row.cropY.isNone || row.cropW.isNone || row.cropH.isNone) = true
    · rw [if_pos hguard]
      simp only [Bool.or_eq_true, Option.isNone_iff_eq_none] at hguard
      simp only [Option.isSome_none, Bool.false_eq_true, false_iff]
      rintro ⟨h1, h2, h3, h4, h5, h6, h7, h8, -⟩
      rcases hguard with ((((((hg | hg) | hg) | hg) | hg) | hg) | hg) | hg <;>
        simp_all [Option.isSome_iff_ne_none]
    · rw [if_neg hguard]
      simp only [Bool.or_eq_true, Option.isNone_iff_eq_none, not_or] at hguard
      obtain ⟨⟨⟨⟨⟨⟨⟨h1, h2⟩, h3⟩, h4⟩, h5⟩, h6⟩, h7⟩, h8⟩ := hguard
      by_cases htime : jsOr (row.endTime.getD 0) 1 ≤ jsOr (row.startTime.getD 0) 0
      · rw [if_pos htime]
        simp only [Option.isSome_none, Bool.false_eq_true, false_iff]
        rintro ⟨-, -, -, -, -, -, -, -, hlt, -⟩
        exact absurd htime (not_le.mpr hlt)
      · rw [if_neg htime]
        by_cases hdim : jsOr (row.cropW.getD 0) 100 ≤ 0 ∨ jsOr (row.cropH.getD 0) 100 ≤ 0
        · rw [if_pos hdim]
          simp only [Option.isSome_none, Bool.false_eq_true, false_iff]
          rintro ⟨-, -, -, -, -, -, -, -, -, hw, hh⟩
          rcases hdim with hd | hd
          · exact absurd hd (not_le.mpr hw)
          · exact absurd hd (not_le.mpr hh)
        · rw [if_neg hdim]
          simp only [Option.isSome_some, true_iff]
          push_neg at htime hdim
          refine ⟨by simpa using h1, by simpa using h2, ?_, ?_, ?_, ?_, ?_, ?_,
            htime, hdim.1, hdim.2⟩ <;> simp [Option.isSome_iff_ne_none, h3, h4, h5, h6, h7, h8]

/-- A row whose crop-width cell is present with value 0 (and height 5). -/
def rowZeroW : Row :=
  ⟨some "vid1", some "hello", none, none, some 0, some 1, some 0, some 0, some 0, some 5⟩

/-- Counterexample to C9 as stated: a row with crop width 0 — a
non-positive crop dimension, which the claim says is skipped — is kept:
the `|| 100` coercion replaces the 0 by 100 before the validation runs,
so the row produces an annotation (with width 100) in the output. -/
theorem c9_zero_width_counterexample :
    rowZeroW.cropW = some 0 ∧
      parseExcelData [rowZeroW] ≠ [] ∧
      ∀ ann ∈ parseExcelData [rowZeroW], ann.cropArea.width = 100 := by
  have hv : ¬("vid1" = "" ∨ "hello" = "") := by decide
  refine ⟨rfl, ?_, ?_⟩ <;>
    norm_num [parseExcelData, parseRow, rowZeroW, strFalsy, jsOr, hv]

/-- Counterexample to C5 as stated: a present video resolution with
zero width ({width: 0, height: 100}) is not rejected — with a valid
canvas resolution the call does not fail with `Missing resolution info`
but proceeds to a successful extraction. -/
theorem c5_video_resolution_counterexample :
    ( processAnnotation st0 annGood canvas0 (some ⟨0, 100⟩) (ExecBehavior.produce 7)).result =
      Except.ok 7 := by
  rw [processAnnotation_result]
  norm_num [annStep, st0, annGood, canvas0]

/-- Witness for C4: duration 0 (`start = end = 2`) with valid
resolutions is rejected as `Invalid duration`. -/
theorem c4_duration_validation_witness :
    missingResolution video0 canvas0 = false ∧
      (( processAnnotation st0 annBad canvas0 video0 (ExecBehavior.produce 7)).result =
          Except.error Cause.invalidDuration ↔
        (annBad.timeRange.endTime - annBad.timeRange.start ≤ 0 ∨
          3600 < annBad.timeRange.endTime - annBad.timeRange.start)) :=
  ⟨by norm_num [missingResolution, video0, canvas0],
    c4_duration_validation st0 annBad canvas0 video0 (ExecBehavior.produce 7)
      (by norm_num [missingResolution, video0, canvas0])⟩
